import Mathlib

/-!
Verification of the `content_profiler` pipeline (Python) against its
natural-language specification.  Python strings are embedded as `List Char`,
dictionaries with a fixed key set as structures with `Option` fields
(`none` = key absent), exceptions as `Except`, and the object heap (where
aliasing matters) as an explicit store of objects addressed by `Nat`.
-/

namespace ContentProfiler


/-- Python strings are modelled as lists of characters. -/
abbrev Str := List Char

/-- Coerce a Lean string literal into the `Str` model. -/
def str (s : String) : Str := s.data

/-! ## `pipeline.slugify`

Source (`pipeline.py`):
```
def slugify(text: str) -> str:
    text = text.lower()
    text = re.sub(r'[^a-z0-9]+', '-', text)
    return re.sub(r'-+', '-', text).strip('-')
```
-/

/-- Characters kept by the regex class `[a-z0-9]` (after lower-casing). -/
def isLowerAlnum (c : Char) : Bool :=
  (97 ≤ c.toNat && c.toNat ≤ 122) || (48 ≤ c.toNat && c.toNat ≤ 57)

/-- ASCII alphanumeric characters `[A-Za-z0-9]`. -/
def isAsciiAlnum (c : Char) : Bool :=
  (97 ≤ c.toNat && c.toNat ≤ 122) || (65 ≤ c.toNat && c.toNat ≤ 90) ||
    (48 ≤ c.toNat && c.toNat ≤ 57)

mutual

/-- `re.sub(r'[^a-z0-9]+', '-', s)`: emit kept characters, replace each
maximal run of other characters by a single hyphen. -/
def subNonAlnum : Str → Str
  | [] => []
  | c :: cs => if isLowerAlnum c then c :: subNonAlnum cs else '-' :: skipNonAlnum cs

/-- State of `subNonAlnum` inside a run of non-alphanumeric characters
(the hyphen for the run has already been emitted). -/
def skipNonAlnum : Str → Str
  | [] => []
  | c :: cs => if isLowerAlnum c then c :: subNonAlnum cs else skipNonAlnum cs

end

mutual

/-- `re.sub(r'-+', '-', s)`: collapse each maximal run of hyphens to one. -/
def subDashes : Str → Str
  | [] => []
  | c :: cs => if c = '-' then '-' :: skipDashes cs else c :: subDashes cs

/-- State of `subDashes` inside a run of hyphens. -/
def skipDashes : Str → Str
  | [] => []
  | c :: cs => if c = '-' then skipDashes cs else c :: subDashes cs

end

/-- Python `s.strip('-')`: drop leading and trailing hyphens. -/
def stripDash (s : Str) : Str :=
  ((s.dropWhile (fun c => c = '-')).reverse.dropWhile (fun c => c = '-')).reverse

/-- Python `str.lower` on one character.  `str.lower` is full Unicode and may
map one character to several: besides the ASCII mapping `A`–`Z` → `a`–`z`,
exactly two Unicode code points lower-case to strings containing ASCII
characters — U+212A KELVIN SIGN → `k`, and U+0130 LATIN CAPITAL LETTER I
WITH DOT ABOVE → `i` followed by U+0307 COMBINING DOT ABOVE.  Every other
character lower-cases to non-ASCII characters (which the slug regex
discards alike) and is modelled as a fixed point. -/
def pyLowerMap (c : Char) : Str :=
  if 65 ≤ c.toNat && c.toNat ≤ 90 then [Char.ofNat (c.toNat + 32)]
  else if c.toNat = 8490 then [Char.ofNat 107]
  else if c.toNat = 304 then [Char.ofNat 105, Char.ofNat 775]
  else [c]

/-- Python `text.lower()`. -/
def pyLower (s : Str) : Str := s.flatMap pyLowerMap

/-- `pipeline.slugify`, translated step for step from the source. -/
def slugify (text : Str) : Str :=
  stripDash (subDashes (subNonAlnum (pyLower text)))

/-- The spec's description of the slug computation: lower-case, collapse each
maximal run of non-alphanumeric characters to a single hyphen, trim
leading/trailing hyphens.  (Stated independently of the source's extra
second regex pass.) -/
def slugifySpec (text : Str) : Str :=
  stripDash (subNonAlnum (pyLower text))

/-! ## Output base path (`run_pipeline`, write section)

Source (`pipeline.py`):
```
base = Path(out_dir) / slugify(profile.get('organization', {}).get('name') or query)
(base / 'content').mkdir(parents=True, exist_ok=True)
(base / 'jsonld').mkdir(parents=True, exist_ok=True)
(base / 'sources.json').write_bytes(...)
(base / 'profile.json').write_bytes(...)
(base / 'training.json').write_bytes(...)
```
A `pathlib` path is modelled as its list of segments; `pathlib` drops an
empty component when joining, so `Path(d) / '' == Path(d)`. -/

/-- `Path(base) / seg` on the segment-list model of `pathlib` paths. -/
def pathJoin (base : List Str) (seg : Str) : List Str :=
  if seg = [] then base else base ++ [seg]

/-- The string fed to `slugify`:
`profile.get('organization', {}).get('name') or query` (Python `or`
falls through on `None` and on the empty string). -/
def slugSource (orgName : Option Str) (query : Str) : Str :=
  match orgName with
  | some n => if n = [] then query else n
  | none => query

/-- The per-run output base directory chosen by `run_pipeline`. -/
def outBase (outDir : Str) (orgName : Option Str) (query : Str) : List Str :=
  pathJoin [outDir] (slugify (slugSource orgName query))

/-- The three top-level JSON files `run_pipeline` writes under the base. -/
def writtenTopPaths (base : List Str) : List (List Str) :=
  [base ++ [str "sources.json"], base ++ [str "profile.json"],
    base ++ [str "training.json"]]

/-- The `content/` subdirectory of the base. -/
def contentDir (base : List Str) : List Str := base ++ [str "content"]

/-- The `jsonld/` subdirectory of the base. -/
def jsonldDir (base : List Str) : List Str := base ++ [str "jsonld"]

/-! ## `scraper.extract_domain`

Source (`scraper.py`):
```
def extract_domain(url: str) -> str:
    ext = tldextract.extract(url)
    return '.'.join(part for part in [ext.domain, ext.suffix] if part)
```
`tldextract` splits a host into subdomain/domain/suffix using the public
suffix list; the model below handles the single-label public suffixes that
occur in this pipeline's domains. -/

/-- Single-label public suffixes recognised by the `tldextract` model. -/
def knownSuffixes : List Str :=
  [str "com", str "org", str "net", str "io", str "co", str "biz", str "info"]

/-- Host part of a URL: strip the scheme, keep up to the first delimiter. -/
def hostOf (url : Str) : Str :=
  let rest :=
    if (str "https://").isPrefixOf url then url.drop 8
    else if (str "http://").isPrefixOf url then url.drop 7
    else url
  rest.takeWhile (fun c => !(c == '/' || c == ':' || c == '?' || c == '#'))

/-- `scraper.extract_domain`: the registrable domain (`domain.suffix`),
on the single-label-suffix model of `tldextract`. -/
def extract_domain (url : Str) : Str :=
  match (List.splitOn '.' (hostOf url)).reverse with
  | [] => []
  | last :: rest =>
    if knownSuffixes.contains last then
      match rest with
      | [] => last
      | d :: _ => if d = [] then last else d ++ '.' :: last
    else last

/-! ## Primary-URL selection (`run_pipeline`, search section)

Source (`pipeline.py`):
```
cse_items = clients.search(query, num=8)
primary_url = None
if cse_items:
    for item in cse_items:
        link = item.get('link')
        dom = extract_domain(link) if link else ''
        if dom and not any(s in dom for s in ['facebook.com','instagram.com',
                'linkedin.com','x.com','twitter.com','yelp.com']):
            primary_url = link
            break
    primary_url = primary_url or cse_items[0].get('link')
```
Only the `link` key of a search item is consulted here. -/

/-- A Google CSE search item; only the `link` key matters for the pick. -/
structure CseItem where
  link : Option Str
deriving DecidableEq

/-- The social-platform substrings in the source's primary-URL filter. -/
def socialsCode : List Str :=
  [str "facebook.com", str "instagram.com", str "linkedin.com",
    str "x.com", str "twitter.com", str "yelp.com"]

/-- The social-platform domains the claim lists. -/
def socialsClaim : List Str :=
  [str "facebook.com", str "instagram.com", str "linkedin.com",
    str "x.com", str "twitter.com", str "youtube.com", str "tiktok.com"]

/-- `extract_domain(link) if link else ''` for one search item. -/
def itemDomain (it : CseItem) : Str :=
  match it.link with
  | some l => if l = [] then [] else extract_domain l
  | none => []

/-- Python's substring test `needle in haystack`. -/
def strContains (needle : Str) : Str → Bool
  | [] => needle.isEmpty
  | c :: cs => needle.isPrefixOf (c :: cs) || strContains needle cs

/-- `any(s in dom for s in [...])` with the source's list. -/
def isSocialCode (dom : Str) : Bool :=
  socialsCode.any (fun s => strContains s dom)

/-- The `for item in cse_items: ... break` search for a non-social link. -/
def pickLoop : List CseItem → Option Str
  | [] => none
  | it :: rest =>
    let dom := itemDomain it
    if !dom.isEmpty && !isSocialCode dom then it.link else pickLoop rest

/-- `run_pipeline`'s primary-URL choice, translated from the source:
the loop's pick, else the first item's link; `None` when there are no
results. -/
def pick_primary : List CseItem → Option Str
  | [] => none
  | first :: rest =>
    match pickLoop (first :: rest) with
    | some l => some l
    | none => first.link

/-- The claim's description of the pick: first result whose registrable
domain is not one of the claim's social-platform domains, falling back to
the first result's link; absent when there are no results. -/
def pick_primary_claim : List CseItem → Option Str
  | [] => none
  | first :: rest =>
    match (first :: rest).find?
        (fun it => !(itemDomain it).isEmpty &&
          !(socialsClaim.contains (itemDomain it))) with
    | some it => it.link
    | none => first.link

/-- The predicate the source's loop actually applies to an item. -/
def primaryPickP (it : CseItem) : Bool :=
  !(itemDomain it).isEmpty && !isSocialCode (itemDomain it)

/-- The amended description: like the claim but with the source's platform
list (facebook/instagram/linkedin/x/twitter/yelp) matched as substrings of
the registrable domain. -/
def pick_primary_amended : List CseItem → Option Str
  | [] => none
  | first :: rest =>
    match (first :: rest).find? primaryPickP with
    | some it => it.link
    | none => first.link

/-! ## Internal-link scraping cap (`run_pipeline`, scraping section)

Source (`pipeline.py`):
```
scraped_pages = []
if primary_url:
    first = extract_text(primary_url)
    scraped_pages.append(first)
    internal_links = []
    for link in first.get('links', []):
        if extract_domain(link) == extract_domain(primary_url):
            internal_links.append(link)
        ...
    for link in internal_links[:12]:
        try:
            page_data = extract_text(link)
            scraped_pages.append(page_data)
        except Exception:
            continue
        if len(scraped_pages) >= 12:
            break
```
`extract_text` is modelled as an oracle `fetch : Str → Option SPage`
(`none` = the fetch raised). -/

/-- The dictionary `extract_text` returns: `{url, text, links}`. -/
structure SPage where
  url : Str
  text : Str
  links : List Str
deriving DecidableEq

/-- The internal links of the primary page: outbound links whose registrable
domain equals the primary URL's. -/
def classifyInternal (first : SPage) (primaryUrl : Str) : List Str :=
  first.links.filter (fun l => extract_domain l == extract_domain primaryUrl)

/-- The `for link in internal_links[:12]` loop with its try/except and its
`len(scraped_pages) >= 12` break. -/
def scrapeGo (fetch : Str → Option SPage) : List Str → List SPage → List SPage
  | [], acc => acc
  | l :: ls, acc =>
    match fetch l with
    | none => scrapeGo fetch ls acc
    | some p =>
      if 12 ≤ acc.length + 1 then acc ++ [p]
      else scrapeGo fetch ls (acc ++ [p])

/-- `scraped_pages` after the scraping section, given the primary page. -/
def scraped_pages (fetch : Str → Option SPage) (first : SPage)
    (primaryUrl : Str) : List SPage :=
  scrapeGo fetch ((classifyInternal first primaryUrl).take 12) [first]

/-! ## `bulk.find_businesses`

Source (`bulk.py`):
```
businesses = []
while len(businesses) < target_count and radius <= 100000 and tried_radii < 6:
    data = clients.places_nearby(lat, lng, radius, keyword=genre)
    items = data.get('results') or []
    for it in items:
        if 'place_id' in it:
            businesses.append(it)
            if len(businesses) >= target_count:
                break
    ...  # same collection for each next_page_token page
seen = set()
unique = []
for b in businesses:
    pid = b.get('place_id')
    if pid and pid not in seen:
        seen.add(pid)
        unique.append(b)
return unique[:target_count]
```
The nearby-search pages produced across pagination and radius rounds are
modelled as the list of result pages the loops consume, in order. -/

/-- A nearby-places entry; only the `place_id` key matters
(`none` = key absent). -/
structure Place where
  place_id : Option Str
deriving DecidableEq

/-- The `for it in items` collection loop of one result page, with its
`len(businesses) >= target_count` break. -/
def collectGo (target : Nat) : List Place → List Place → List Place
  | [], acc => acc
  | it :: rest, acc =>
    if it.place_id.isSome then
      if target ≤ acc.length + 1 then acc ++ [it]
      else collectGo target rest (acc ++ [it])
    else collectGo target rest acc

/-- The page-consuming loops: each round first re-checks
`len(businesses) < target_count`. -/
def collectPages (target : Nat) : List (List Place) → List Place → List Place
  | [], acc => acc
  | pg :: pgs, acc =>
    if target ≤ acc.length then acc
    else collectPages target pgs (collectGo target pg acc)

/-- The `pid and pid not in seen` deduplication pass. -/
def dedupGo : List Place → List Str → List Place
  | [], _ => []
  | ⟨none⟩ :: bs, seen => dedupGo bs seen
  | ⟨some pid⟩ :: bs, seen =>
    if !pid.isEmpty && !seen.contains pid then
      (⟨some pid⟩ : Place) :: dedupGo bs (pid :: seen)
    else dedupGo bs seen

/-- `bulk.find_businesses`, as a function of the consumed result pages. -/
def find_businesses (pages : List (List Place)) (target : Nat) : List Place :=
  (dedupGo (collectPages target pages []) []).take target

/-! ## `http.get_json` / `http.get_text` retry policy

Source (`http.py`):
```
class HttpError(Exception):
    pass

@retry(reraise=True, stop=stop_after_attempt(4),
       wait=wait_exponential(multiplier=0.5, min=1, max=8),
       retry=retry_if_exception_type(HttpError))
def get_json(url, params=None, headers=None) -> dict:
    resp = requests.get(url, params=params, headers=headers, timeout=20)
    if resp.status_code >= 500:
        raise HttpError(f"{resp.status_code}: {resp.text[:200]}")
    resp.raise_for_status()
    return resp.json()
```
One HTTP attempt either yields a response with a status code or raises a
transport-level `requests` exception; the sequence of attempt outcomes is
an oracle `trace : Nat → HttpOutcome`.  tenacity retries an attempt only
when it raised `HttpError` (`retry_if_exception_type`), makes at most 4
attempts (`stop_after_attempt(4)`), re-raises the last error
(`reraise=True`), and sleeps `max(min, min(multiplier * 2^n, max))` seconds
after the n-th failed attempt (`wait_exponential`). -/

/-- Outcome of one `requests.get` call. -/
inductive HttpOutcome where
  | resp (status : Nat) (body : Str)
  | transport (msg : Str)
deriving DecidableEq

/-- The exceptions a wrapped call can surface. -/
inductive ReqError where
  | httpError (status : Nat) (snippet : Str)
  | statusError (status : Nat)
  | transportFail (msg : Str)
deriving DecidableEq

/-- `retry_if_exception_type(HttpError)`. -/
def isHttpError : ReqError → Bool
  | .httpError _ _ => true
  | _ => false

/-- One attempt of the wrapped body of `get_json`/`get_text`. -/
def attemptGet (o : HttpOutcome) : Except ReqError Str :=
  match o with
  | .transport m => .error (.transportFail m)
  | .resp s b =>
    if 500 ≤ s then .error (.httpError s (b.take 200))
    else if 400 ≤ s then .error (.statusError s)
    else .ok b

/-- tenacity's driver: attempt `i`, with `rem` further attempts allowed.
Returns the surfaced result and the number of attempts made. -/
def tenacityRun (f : Nat → Except ReqError Str) : Nat → Nat → Except ReqError Str × Nat
  | i, 0 => (f i, i + 1)
  | i, rem + 1 =>
    match f i with
    | .ok v => (.ok v, i + 1)
    | .error e => if isHttpError e then tenacityRun f (i + 1) rem else (.error e, i + 1)

/-- `http.get_json` under the retry decorator (4 attempts total). -/
def get_json (trace : Nat → HttpOutcome) : Except ReqError Str × Nat :=
  tenacityRun (fun i => attemptGet (trace i)) 0 3

/-- tenacity's `wait_exponential(multiplier=0.5, min=1, max=8)`: the sleep
after the n-th failed attempt, in seconds. -/
def waitExponential (n : Nat) : ℚ := max 1 (min ((1 : ℚ) / 2 * 2 ^ n) 8)

/-! ## `openai_synth.synthesize_profile`

Source (`openai_synth.py`):
```
resp = client.chat.completions.create(...)
content = resp.choices[0].message.content
return orjson.loads(content) if content else {}
```
The model's response content is the input (`none` = the API returned no
content).  `orjson.loads` is modelled by a recursive-descent JSON reader
(integer numbers, the common escapes); it returns `Except`, an `error`
being the `JSONDecodeError` the real `orjson.loads` raises. -/

/-- A JSON value. -/
inductive JValue where
  | jnull
  | jbool (b : Bool)
  | jnum (n : Int)
  | jstr (s : Str)
  | jarr (xs : List JValue)
  | jobj (kvs : List (Str × JValue))

/-- JSON whitespace. -/
def isWs (c : Char) : Bool := c = ' ' || c = '\n' || c = '\t' || c = '\r'

/-- Skip leading whitespace. -/
def skipWs (s : Str) : Str := s.dropWhile isWs

/-- Resolution of a backslash escape inside a JSON string. -/
def escChar (c : Char) : Char :=
  if c = 'n' then '\n' else if c = 't' then '\t' else if c = 'r' then '\r' else c

/-- Body of a JSON string after the opening quote, up to the closing one. -/
def strBody : Str → Option (Str × Str)
  | [] => none
  | c :: cs =>
    if c = Char.ofNat 34 then some ([], cs)
    else if c = Char.ofNat 92 then
      match cs with
      | [] => none
      | e :: cs2 =>
        match strBody cs2 with
        | none => none
        | some (acc, rest) => some (escChar e :: acc, rest)
    else
      match strBody cs with
      | none => none
      | some (acc, rest) => some (c :: acc, rest)

/-- ASCII digit test. -/
def isDigit (c : Char) : Bool := 48 ≤ c.toNat && c.toNat ≤ 57

/-- Value of a digit string. -/
def digitsToNat (ds : Str) : Nat := ds.foldl (fun n c => n * 10 + (c.toNat - 48)) 0

/-- Leading (integer) number token. -/
def numFrom : Str → Option (Int × Str)
  | '-' :: rest =>
    let ds := rest.takeWhile isDigit
    if ds.isEmpty then none
    else some (-(digitsToNat ds : Int), rest.dropWhile isDigit)
  | s =>
    let ds := s.takeWhile isDigit
    if ds.isEmpty then none
    else some ((digitsToNat ds : Int), s.dropWhile isDigit)

mutual

/-- Parse one JSON value (fuel-bounded recursive descent). -/
def parseVal : Nat → Str → Option (JValue × Str)
  | 0, _ => none
  | fuel + 1, s0 =>
    let s := skipWs s0
    if (str "null").isPrefixOf s then some (.jnull, s.drop 4)
    else if (str "true").isPrefixOf s then some (.jbool true, s.drop 4)
    else if (str "false").isPrefixOf s then some (.jbool false, s.drop 5)
    else
      match s with
      | [] => none
      | c :: cs =>
        if c = Char.ofNat 34 then
          match strBody cs with
          | none => none
          | some (body, rest) => some (.jstr body, rest)
        else if c = Char.ofNat 91 then
          match skipWs cs with
          | c2 :: cs2 =>
            if c2 = Char.ofNat 93 then some (.jarr [], cs2)
            else
              match parseItems fuel (c2 :: cs2) with
              | none => none
              | some (vs, rest) => some (.jarr vs, rest)
          | [] => none
        else if c = Char.ofNat 123 then
          match skipWs cs with
          | c2 :: cs2 =>
            if c2 = Char.ofNat 125 then some (.jobj [], cs2)
            else
              match parseMembers fuel (c2 :: cs2) with
              | none => none
              | some (ms, rest) => some (.jobj ms, rest)
          | [] => none
        else
          match numFrom (c :: cs) with
          | none => none
          | some (n, rest) => some (.jnum n, rest)

/-- Parse array elements `v (, v)* ]`. -/
def parseItems : Nat → Str → Option (List JValue × Str)
  | 0, _ => none
  | fuel + 1, s =>
    match parseVal fuel s with
    | none => none
    | some (v, rest) =>
      match skipWs rest with
      | c :: cs =>
        if c = ',' then
          match parseItems fuel cs with
          | none => none
          | some (vs, rest2) => some (v :: vs, rest2)
        else if c = Char.ofNat 93 then some ([v], cs)
        else none
      | [] => none

/-- Parse object members `"k" : v (, "k" : v)* }`. -/
def parseMembers : Nat → Str → Option (List (Str × JValue) × Str)
  | 0, _ => none
  | fuel + 1, s =>
    match skipWs s with
    | c :: cs =>
      if c = Char.ofNat 34 then
        match strBody cs with
        | none => none
        | some (key, rest) =>
          match skipWs rest with
          | d :: ds =>
            if d = ':' then
              match parseVal fuel ds with
              | none => none
              | some (v, rest2) =>
                match skipWs rest2 with
                | e :: es =>
                  if e = ',' then
                    match parseMembers fuel es with
                    | none => none
                    | some (ms, rest3) => some ((key, v) :: ms, rest3)
                  else if e = Char.ofNat 125 then some ([(key, v)], es)
                  else none
                | [] => none
            else none
          | [] => none
      else none
    | [] => none

end

/-- The model of `orjson.loads`: an `error` is the `JSONDecodeError` the
real function raises. -/
def orjson_loads (s : Str) : Except Str JValue :=
  match parseVal (s.length + 1) s with
  | some (v, rest) =>
    if (skipWs rest).isEmpty then .ok v
    else .error (str "unexpected trailing characters")
  | none => .error (str "invalid json")

/-- `openai_synth.synthesize_profile` as a function of the response content
(Python truthiness: `None` and the empty string both take the `{}`
branch). -/
def synthesize_profile (content : Option Str) : Except Str JValue :=
  match content with
  | none => .ok (JValue.jobj [])
  | some c => if c.isEmpty then .ok (JValue.jobj []) else orjson_loads c

/-! ## `openai_synth.render_markdown_outputs`

Source (`openai_synth.py`, lines 170–230).  The synthesized profile's keys
are modelled as structures with `Option` fields (`none` = key absent);
`profile.get('services', [])` and friends default to empty lists. -/

/-- `organization` object of a profile (the keys this code reads). -/
structure Org where
  name : Option Str
  description : Option Str
  url : Option Str
  phone : Option Str
  email : Option Str
  social : Option (List Str)
  address : Option Str
  hours : Option Str

/-- One `services` entry. -/
structure Service where
  name : Option Str
  summary : Option Str
  details : Option Str
  bullets : Option (List Str)
  benefits : Option (List Str)
  duration : Option Str
  pricing : Option Str

/-- One `team` entry. -/
structure TeamMember where
  name : Option Str
  role : Option Str
  bio : Option Str
  specialties : Option (List Str)

/-- One `products` entry. -/
structure Product where
  name : Option Str
  description : Option Str
  category : Option Str
  features : Option (List Str)
  pricing : Option Str

/-- One `faqs` entry. -/
structure Faq where
  q : Option Str
  a : Option Str

/-- The `voice` object (only `tone` is read here). -/
structure Voice where
  tone : Option Str

/-- The synthesized profile as read by the renderer. -/
structure Profile where
  organization : Option Org
  services : List Service
  faqs : List Faq
  voice : Option Voice
  team : List TeamMember
  products : List Product

/-- `d.get(key, '')`. -/
def getS (o : Option Str) : Str := o.getD []

/-- `d.get(key, [])`. -/
def getL (o : Option (List Str)) : List Str := o.getD []

/-- Python truthiness of an optional string. -/
def truthyS : Option Str → Bool
  | some s => !s.isEmpty
  | none => false

/-- Python truthiness of an optional list. -/
def truthyL : Option (List Str) → Bool
  | some l => !l.isEmpty
  | none => false

/-- `sep.join(xs)`. -/
def joinSep (sep : Str) : List Str → Str
  | [] => []
  | [x] => x
  | x :: y :: rest => x ++ sep ++ joinSep sep (y :: rest)

/-- ASCII letter test. -/
def isAsciiAlpha (c : Char) : Bool :=
  (97 ≤ c.toNat && c.toNat ≤ 122) || (65 ≤ c.toNat && c.toNat ≤ 90)

/-- ASCII upper-casing of one character. -/
def pyUpperChar (c : Char) : Char :=
  if 97 ≤ c.toNat && c.toNat ≤ 122 then Char.ofNat (c.toNat - 32) else c

/-- ASCII lower-casing of one character. -/
def pyLowerChar (c : Char) : Char :=
  if 65 ≤ c.toNat && c.toNat ≤ 90 then Char.ofNat (c.toNat + 32) else c

mutual

/-- Python `str.title()`, at a word boundary. -/
def titleStart : Str → Str
  | [] => []
  | c :: cs =>
    if isAsciiAlpha c then pyUpperChar c :: titleRest cs else c :: titleStart cs

/-- Python `str.title()`, inside a word. -/
def titleRest : Str → Str
  | [] => []
  | c :: cs =>
    if isAsciiAlpha c then pyLowerChar c :: titleRest cs else c :: titleStart cs

end

/-- Python `s.title()`. -/
def pyTitle (s : Str) : Str := titleStart s

/-- `profile.get('organization', {})`. -/
def orgOf (p : Profile) : Org :=
  p.organization.getD ⟨none, none, none, none, none, none, none, none⟩

/-- `profile.get('voice', {}).get('tone','Professional')`. -/
def toneOf (p : Profile) : Str :=
  match (p.voice.getD ⟨none⟩).tone with
  | some t => t
  | none => str "Professional"

/-- One block of `services.md`. -/
def serviceBlock (s : Service) : Str :=
  str "## " ++ getS s.name ++ str "\n\n" ++ getS s.summary ++ str "\n\n" ++
  (if truthyS s.details then str "### Details\n" ++ getS s.details ++ str "\n\n"
    else []) ++
  (if truthyL s.bullets then
    str "### Key Features:\n- " ++ joinSep (str "\n- ") (getL s.bullets) ++ str "\n\n"
    else []) ++
  (if truthyL s.benefits then
    str "### Benefits:\n- " ++ joinSep (str "\n- ") (getL s.benefits) ++ str "\n\n"
    else []) ++
  (if truthyS s.duration then str "**Duration:** " ++ getS s.duration ++ str "\n\n"
    else []) ++
  (if truthyS s.pricing then str "**Pricing:** " ++ getS s.pricing ++ str "\n\n"
    else [])

/-- One block of `faqs.md`. -/
def faqBlock (f : Faq) : Str :=
  str "### " ++ getS f.q ++ str "\n\n" ++ getS f.a

/-- One block of `team.md`. -/
def teamBlock (m : TeamMember) : Str :=
  str "## " ++ getS m.name ++ str "\n**" ++ getS m.role ++ str "**\n\n" ++
  getS m.bio ++ str "\n\n" ++
  (if truthyL m.specialties then
    str "**Specialties:** " ++ joinSep (str ", ") (getL m.specialties) ++ str "\n\n"
    else [])

/-- One block of `products.md`. -/
def productBlock (pr : Product) : Str :=
  str "## " ++ getS pr.name ++ str "\n\n" ++ getS pr.description ++ str "\n\n" ++
  (if truthyS pr.category then str "**Category:** " ++ getS pr.category ++ str "\n\n"
    else []) ++
  (if truthyL pr.features then
    str "**Features:**\n- " ++ joinSep (str "\n- ") (getL pr.features) ++ str "\n\n"
    else []) ++
  (if truthyS pr.pricing then str "**Pricing:** " ++ getS pr.pricing ++ str "\n\n"
    else [])

/-- `about.md`. -/
def aboutMd (p : Profile) : Str :=
  str "# About " ++ getS (orgOf p).name ++ str "\n\n" ++
    getS (orgOf p).description ++ str "\n"

/-- `services.md`. -/
def servicesMd (p : Profile) : Str :=
  str "# Services\n\n" ++ joinSep (str "\n\n") (p.services.map serviceBlock)

/-- `faqs.md`. -/
def faqsMd (p : Profile) : Str :=
  str "# Frequently Asked Questions\n\n" ++
    joinSep (str "\n\n") (p.faqs.map faqBlock)

/-- `homepage-hero.md`. -/
def heroMd (p : Profile) : Str :=
  str "# " ++ pyTitle (toneOf p) ++ str " " ++ getS (orgOf p).name ++
    str "\n\n" ++ getS (orgOf p).description ++ str "\n"

/-- `team.md` body (`""` when the team list is empty). -/
def teamMd (p : Profile) : Str :=
  if p.team.isEmpty then []
  else str "# Our Team\n\n" ++ joinSep (str "\n\n") (p.team.map teamBlock)

/-- `products.md` body (`""` when the products list is empty). -/
def productsMd (p : Profile) : Str :=
  if p.products.isEmpty then []
  else str "# Products\n\n" ++ joinSep (str "\n\n") (p.products.map productBlock)

/-- `openai_synth.render_markdown_outputs`: the mapping of filenames to
markdown bodies, in insertion order. -/
def render_markdown_outputs (p : Profile) : List (Str × Str) :=
  [(str "about.md", aboutMd p), (str "services.md", servicesMd p),
    (str "faqs.md", faqsMd p), (str "homepage-hero.md", heroMd p)] ++
  (if !(teamMd p).isEmpty then [(str "team.md", teamMd p)] else []) ++
  (if !(productsMd p).isEmpty then [(str "products.md", productsMd p)] else [])

/-! ## Organization JSON-LD (`run_pipeline`, write section)

Source (`pipeline.py`):
```
org = profile.get('organization', {})
org_graph = {
    '@context': 'https://schema.org',
    '@graph': [
        {
            '@type': 'Organization',
            '@id': f"{org.get('url','').rstrip('/') or primary_url.rstrip('/')
                      if primary_url else ''}#organization",
            'name': org.get('name'),
            'url': org.get('url') or primary_url,
            'telephone': org.get('phone'),
            'description': org.get('description'),
            'sameAs': org.get('social') or [],
            'address': org.get('address') or None,
            'openingHoursSpecification': org.get('hours') or None,
        }
    ]
}
```
Python's conditional expression binds loosest, so the `@id` prefix is
`(org.get('url','').rstrip('/') or primary_url.rstrip('/')) if primary_url
else ''`. -/

/-- Python `s.rstrip('/')`. -/
def rstripSlash (s : Str) : Str :=
  (s.reverse.dropWhile (fun c => c = '/')).reverse

/-- Python `a or b` on optional strings (`None` and `''` are falsy). -/
def pyOr (a b : Option Str) : Option Str :=
  match a with
  | some s => if s.isEmpty then b else some s
  | none => b

/-- Python `a or None` on an optional string. -/
def pyOrNone (a : Option Str) : Option Str :=
  match a with
  | some s => if s.isEmpty then none else some s
  | none => none

/-- Python `org.get('social') or []`. -/
def socialOrEmpty : Option (List Str) → List Str
  | some l => if l.isEmpty then [] else l
  | none => []

/-- The `@id` value, translated from the f-string with Python's conditional
precedence. -/
def orgId (org : Org) (primary : Option Str) : Str :=
  (match primary with
   | some p =>
     if p.isEmpty then []
     else if (rstripSlash (getS org.url)).isEmpty then rstripSlash p
     else rstripSlash (getS org.url)
   | none => []) ++ str "#organization"

/-- The single node of the `@graph`. -/
structure OrgNode where
  atType : Str
  atId : Str
  name : Option Str
  url : Option Str
  telephone : Option Str
  description : Option Str
  sameAs : List Str
  address : Option Str
  hours : Option Str

/-- Build the graph node from the profile's organization and the primary
URL, field for field from the source. -/
def build_org_node (org : Org) (primary : Option Str) : OrgNode :=
  { atType := str "Organization"
  , atId := orgId org primary
  , name := org.name
  , url := pyOr org.url primary
  , telephone := org.phone
  , description := org.description
  , sameAs := socialOrEmpty org.social
  , address := pyOrNone org.address
  , hours := pyOrNone org.hours }

/-- The persisted document: a context and a one-node graph. -/
structure OrgGraphDoc where
  context : Str
  graph : List OrgNode

/-- `org_graph` as written to `jsonld/organization.jsonld`. -/
def build_org_graph (org : Org) (primary : Option Str) : OrgGraphDoc :=
  { context := str "https://schema.org"
  , graph := [build_org_node org primary] }

/-- The claim's description of the `@id`: organization URL, else primary
URL, trailing slash stripped, plus `#organization`. -/
def orgIdClaim (org : Org) (primary : Option Str) : Str :=
  (match pyOr org.url primary with
   | some u => rstripSlash u
   | none => []) ++ str "#organization"

/-! ## `openai_synth.truncate_sources`

Source (`openai_synth.py`):
```
def truncate_sources(sources, max_chars=50000):
    truncated = sources.copy()
    if 'scraped' in truncated:
        for page in truncated['scraped']:
            if 'text' in page and len(page['text']) > 8000:
                page['text'] = page['text'][:8000] + '... [truncated]'
    if 'cse' in truncated:
        for item in truncated['cse']:
            if 'snippet' in item and len(item['snippet']) > 500:
                item['snippet'] = item['snippet'][:500] + '...'
    if 'pagespeed' in truncated:
        if isinstance(truncated['pagespeed'], dict) and \
           'lighthouseResult' in truncated['pagespeed']:
            truncated['pagespeed'] = {'summary': 'PageSpeed data available '
                                                 'but truncated for processing'}
    return truncated
```
`dict.copy()` is shallow: the copy holds the same references to the nested
page and item dicts as the original, so the in-place updates
`page['text'] = ...` and `item['snippet'] = ...` are visible through the
original bundle.  The heap is explicit: a `Store` maps addresses to the
nested objects, and a `Bundle` holds lists of addresses. -/

/-- A scraped-page dict on the heap (`text` may be absent). -/
structure PageObj where
  url : Str
  text : Option Str

/-- A search-result item dict on the heap (`snippet` may be absent). -/
structure ItemObj where
  snippet : Option Str

/-- The `pagespeed` value: a dict (which may carry `lighthouseResult`), or
some non-dict value. -/
inductive PSVal where
  | pdict (hasLighthouseResult : Bool) (content : Str)
  | nondict (content : Str)

/-- The heap of nested objects. -/
structure Store where
  pages : Nat → PageObj
  items : Nat → ItemObj

/-- The top-level source bundle; `scraped` and `cse` hold references into
the heap, `pagespeed` is held directly (rebinding the key in a copy does
not affect the original). -/
structure Bundle where
  scraped : Option (List Nat)
  cse : Option (List Nat)
  pagespeed : Option PSVal

/-- Pointwise update of a heap function. -/
def updFn {α : Type} (f : Nat → α) (i : Nat) (v : α) : Nat → α :=
  fun j => if j = i then v else f j

/-- The `'... [truncated]'` marker. -/
def truncMarker : Str := str "... [truncated]"

/-- In-place update of one page dict: cap `text` at 8000 characters. -/
def truncPageObj (p : PageObj) : PageObj :=
  match p.text with
  | some t =>
    if 8000 < t.length then { p with text := some (t.take 8000 ++ truncMarker) }
    else p
  | none => p

/-- In-place update of one item dict: cap `snippet` at 500 characters. -/
def truncItemObj (it : ItemObj) : ItemObj :=
  match it.snippet with
  | some t =>
    if 500 < t.length then { it with snippet := some (t.take 500 ++ str "...") }
    else it
  | none => it

/-- The `for page in truncated['scraped']` loop: mutates the heap. -/
def truncPagesAt : List Nat → Store → Store
  | [], st => st
  | a :: as, st =>
    truncPagesAt as { st with pages := updFn st.pages a (truncPageObj (st.pages a)) }

/-- The `for item in truncated['cse']` loop: mutates the heap. -/
def truncItemsAt : List Nat → Store → Store
  | [], st => st
  | a :: as, st =>
    truncItemsAt as { st with items := updFn st.items a (truncItemObj (st.items a)) }

/-- The replacement `{'summary': ...}` dict (no `lighthouseResult` key). -/
def psSummary : PSVal :=
  PSVal.pdict false (str "PageSpeed data available but truncated for processing")

/-- `openai_synth.truncate_sources` on the explicit heap: returns the
shallow copy and the heap after the in-place updates. -/
def truncate_sources (sources : Bundle) (st : Store) : Bundle × Store :=
  let st1 :=
    match sources.scraped with
    | some addrs => truncPagesAt addrs st
    | none => st
  let st2 :=
    match sources.cse with
    | some addrs => truncItemsAt addrs st1
    | none => st1
  let truncated :=
    match sources.pagespeed with
    | some (PSVal.pdict true _) => { sources with pagespeed := some psSummary }
    | _ => sources
  (truncated, st2)

/-- A scraped page whose text exceeds the 8000-character cap. -/
def bigPage : PageObj := ⟨str "https://example.com", some (List.replicate 8001 'a')⟩

/-- A search item whose snippet exceeds the 500-character cap. -/
def bigItem : ItemObj := ⟨some (List.replicate 501 'b')⟩

/-! ## Theorems -/

/-- `subNonAlnum` never emits two adjacent hyphens, so the second regex pass
of `slugify` is the identity on its output.  Stated mutually with the
corresponding fact for `skipNonAlnum`. -/
theorem subDashes_subNonAlnum (s : Str) :
    subDashes (subNonAlnum s) = subNonAlnum s ∧
      subDashes (skipNonAlnum s) = skipNonAlnum s := by
  induction s with
  | nil => simp [subNonAlnum, skipNonAlnum, subDashes]
  | cons c cs ih =>
    refine ⟨?_, ?_⟩
    · by_cases h : isLowerAlnum c = true
      · have hc : ¬ c = '-' := by
          intro e; subst e; simp [isLowerAlnum] at h
        simp [subNonAlnum, h, subDashes, hc, ih.1]
      · -- a hyphen is emitted; the following `skipNonAlnum` output starts
        -- with an alphanumeric character (or is empty)
        simp only [subNonAlnum, h, if_false, Bool.false_eq_true]
        simp only [subDashes, if_pos rfl]
        have : skipDashes (skipNonAlnum cs) = subDashes (skipNonAlnum cs) := by
          clear ih
          induction cs with
          | nil => simp [skipNonAlnum, skipDashes, subDashes]
          | cons d ds ihd =>
            by_cases hd : isLowerAlnum d = true
            · have hdc : ¬ d = '-' := by
                intro e; subst e; simp [isLowerAlnum] at hd
              simp [skipNonAlnum, hd, skipDashes, subDashes, hdc]
            · simp [skipNonAlnum, hd, ihd]
        rw [this, ih.2]; simp
    · by_cases h : isLowerAlnum c = true
      · have hc : ¬ c = '-' := by
          intro e; subst e; simp [isLowerAlnum] at h
        simp [skipNonAlnum, h, subDashes, hc, ih.1]
      · simp [skipNonAlnum, h, ih.2]

/-- On a string with no `[a-z0-9]` character, `skipNonAlnum` returns `[]`. -/
theorem skipNonAlnum_all_bad (s : Str)
    (h : ∀ c ∈ s, isLowerAlnum c = false) : skipNonAlnum s = [] := by
  induction s with
  | nil => simp [skipNonAlnum]
  | cons c cs ih =>
    have hc : isLowerAlnum c = false := h c (List.mem_cons_self c cs)
    simp [skipNonAlnum, hc]
    exact ih (fun d hd => h d (List.mem_cons_of_mem c hd))

/-- Python `s.strip('-')` of the single-hyphen string is empty. -/
theorem stripDash_single : stripDash ['-'] = [] := by
  simp [stripDash, List.dropWhile]

/-- C7: for every input string, `slugify` returns the string lower-cased with
every maximal run of non-alphanumeric characters collapsed to a single hyphen
and with leading/trailing hyphens trimmed; in particular
`slugify("Joe's Plumbing & Co.")` equals `"joe-s-plumbing-co"`. -/
theorem slugify_correct :
    (∀ text : Str, slugify text = slugifySpec text) ∧
      slugify (str "Joe's Plumbing & Co.") = str "joe-s-plumbing-co" := by
  constructor
  · intro text
    unfold slugify slugifySpec
    rw [(subDashes_subNonAlnum (pyLower text)).1]
  · decide

/-- C10 counterexample: `'K'` (U+212A KELVIN SIGN) contains no ASCII
alphanumeric character, yet Python's `str.lower` maps it to the ASCII
letter `k`, so `slugify` returns `"k"` — not the empty string — and
`run_pipeline` creates a slug-named subdirectory rather than writing
directly under the output base. -/
theorem empty_slug_counterexample :
    (∀ c ∈ [Char.ofNat 8490], isAsciiAlnum c = false) ∧
    slugify [Char.ofNat 8490] = str "k" ∧
    slugify [Char.ofNat 8490] ≠ [] ∧
    outBase (str "out") (some [Char.ofNat 8490]) (str "acme") =
      [str "out", str "k"] ∧
    outBase (str "out") (some [Char.ofNat 8490]) (str "acme") ≠
      [str "out"] := by
  refine ⟨by decide, by decide, by decide, by decide, by decide⟩

/-- C10 amended: an input none of whose characters lower-cases to an ASCII
alphanumeric (equivalently: after `str.lower` no character is in
`[a-z0-9]`) slugifies to the empty string, and `run_pipeline` then writes
`sources.json`, `profile.json`, `training.json` and the `content/`,
`jsonld/` directories directly under the output base (the empty path
segment is dropped by `pathlib`).  Merely containing no ASCII alphanumeric
is not enough: U+212A lowers to `k`. -/
theorem empty_slug_out_base (outDir query : Str) (orgName : Option Str)
    (h : ∀ c ∈ pyLower (slugSource orgName query), isLowerAlnum c = false) :
    slugify (slugSource orgName query) = [] ∧
    outBase outDir orgName query = [outDir] ∧
    writtenTopPaths (outBase outDir orgName query) =
      [[outDir, str "sources.json"], [outDir, str "profile.json"],
        [outDir, str "training.json"]] ∧
    contentDir (outBase outDir orgName query) = [outDir, str "content"] ∧
    jsonldDir (outBase outDir orgName query) = [outDir, str "jsonld"] := by
  have hslug : slugify (slugSource orgName query) = [] := by
    unfold slugify
    cases hsrc : pyLower (slugSource orgName query) with
    | nil => simp [subNonAlnum, subDashes, stripDash]
    | cons c cs =>
      rw [hsrc] at h
      have hc : isLowerAlnum c = false := h c (List.mem_cons_self c cs)
      have hcs : skipNonAlnum cs = [] :=
        skipNonAlnum_all_bad cs (fun d hd => h d (List.mem_cons_of_mem c hd))
      simp [subNonAlnum, hc, hcs, subDashes, skipDashes, stripDash_single]
  refine ⟨hslug, ?_, ?_, ?_, ?_⟩ <;>
    simp [outBase, pathJoin, hslug, writtenTopPaths, contentDir, jsonldDir]

/-- A concrete run of `empty_slug_out_base`: no character of the
organization name `"$$$"` lower-cases to an alphanumeric, so everything
lands directly under `out/`. -/
theorem empty_slug_out_base_witness :
    slugify (slugSource (some (str "$$$")) (str "acme")) = [] ∧
    outBase (str "out") (some (str "$$$")) (str "acme") = [str "out"] ∧
    writtenTopPaths (outBase (str "out") (some (str "$$$")) (str "acme")) =
      [[str "out", str "sources.json"], [str "out", str "profile.json"],
        [str "out", str "training.json"]] ∧
    contentDir (outBase (str "out") (some (str "$$$")) (str "acme")) =
      [str "out", str "content"] ∧
    jsonldDir (outBase (str "out") (some (str "$$$")) (str "acme")) =
      [str "out", str "jsonld"] :=
  empty_slug_out_base (str "out") (str "acme") (some (str "$$$")) (by decide)

/-- An item satisfying the pick predicate has a non-empty link. -/
theorem primaryPickP_link {it : CseItem} (h : primaryPickP it = true) :
    ∃ l, it.link = some l ∧ l ≠ [] := by
  unfold primaryPickP itemDomain at h
  cases hl : it.link with
  | none => rw [hl] at h; simp at h
  | some l =>
    refine ⟨l, rfl, ?_⟩
    intro he
    rw [hl, he] at h
    simp at h

/-- The source's pick loop returns exactly the link of the first item that
satisfies the pick predicate. -/
theorem pickLoop_eq_find (l : List CseItem) :
    pickLoop l = (l.find? primaryPickP).bind CseItem.link := by
  induction l with
  | nil => simp [pickLoop]
  | cons it rest ih =>
    by_cases h : primaryPickP it = true
    · have h2 := h
      unfold primaryPickP at h2
      simp [pickLoop, h2, List.find?, h]
    · have h2 : (!(itemDomain it).isEmpty && !isSocialCode (itemDomain it)) = false := by
        unfold primaryPickP at h
        simpa using h
      simp [pickLoop, h2, List.find?, h, ih]

/-- C4 counterexample: with a YouTube result first and a plain `.com` site
second, the source picks the YouTube link (its filter list has no
`youtube.com`), while the claim's pick skips it and returns the second
link. -/
theorem pick_primary_counterexample :
    pick_primary
        [⟨some (str "https://youtube.com/c/acme")⟩,
          ⟨some (str "https://example.com/")⟩] =
      some (str "https://youtube.com/c/acme") ∧
    pick_primary_claim
        [⟨some (str "https://youtube.com/c/acme")⟩,
          ⟨some (str "https://example.com/")⟩] =
      some (str "https://example.com/") ∧
    str "https://youtube.com/c/acme" ≠ str "https://example.com/" :=
  ⟨by decide, by decide, by decide⟩

/-- C4 amended: the primary URL is the link of the first result whose
registrable domain is non-empty and contains none of the source's platform
substrings (facebook.com, instagram.com, linkedin.com, x.com, twitter.com,
yelp.com), falling back to the first result's link; it is absent when the
search returned no results. -/
theorem pick_primary_correct :
    (∀ items : List CseItem, pick_primary items = pick_primary_amended items) ∧
      pick_primary [] = none := by
  refine ⟨?_, rfl⟩
  intro items
  cases items with
  | nil => rfl
  | cons first rest =>
    simp only [pick_primary, pick_primary_amended, pickLoop_eq_find]
    cases hf : (first :: rest).find? primaryPickP with
    | none => simp
    | some it =>
      have hp : primaryPickP it = true := List.find?_some hf
      rcases primaryPickP_link hp with ⟨l, hl, _⟩
      simp [hl]

/-- The scrape loop never pushes the page count past 12. -/
theorem scrapeGo_length_le (fetch : Str → Option SPage) (ls : List Str)
    (acc : List SPage) (h : acc.length < 12) :
    (scrapeGo fetch ls acc).length ≤ 12 := by
  induction ls generalizing acc with
  | nil => simpa [scrapeGo] using Nat.le_of_lt h
  | cons l ls ih =>
    unfold scrapeGo
    cases fetch l with
    | none => exact ih acc h
    | some p =>
      by_cases hb : 12 ≤ acc.length + 1
      · simp [hb]
        omega
      · simp [hb]
        exact ih (acc ++ [p]) (by simp; omega)

/-- The scrape loop keeps the primary page at the front. -/
theorem scrapeGo_head (fetch : Str → Option SPage) (ls : List Str)
    (a : SPage) (as : List SPage) :
    (scrapeGo fetch ls (a :: as)).head? = some a := by
  induction ls generalizing as with
  | nil => simp [scrapeGo]
  | cons l ls ih =>
    unfold scrapeGo
    cases fetch l with
    | none => exact ih as
    | some p =>
      by_cases hb : 12 ≤ (a :: as).length + 1
      · have hb2 : 10 ≤ as.length := by simp at hb; omega
        simp [hb2]
      · have hb2 : ¬ 10 ≤ as.length := by simp at hb; omega
        simpa [hb2, List.cons_append] using ih (as ++ [p])

/-- When every fetch succeeds, the loop scrapes until it runs out of links
or reaches 12 pages in total. -/
theorem scrapeGo_length_all_ok (fetch : Str → Option SPage) (ls : List Str)
    (acc : List SPage) (hok : ∀ l ∈ ls, (fetch l).isSome)
    (h : acc.length < 12) :
    (scrapeGo fetch ls acc).length = min (acc.length + ls.length) 12 := by
  induction ls generalizing acc with
  | nil => simp [scrapeGo]; omega
  | cons l ls ih =>
    unfold scrapeGo
    have hl : (fetch l).isSome := hok l (List.mem_cons_self l ls)
    cases hf : fetch l with
    | none => rw [hf] at hl; simp at hl
    | some p =>
      by_cases hb : 12 ≤ acc.length + 1
      · simp [hb]
        omega
      · simp only [hb, if_false]
        rw [ih (acc ++ [p]) (fun x hx => hok x (List.mem_cons_of_mem l hx))
          (by simp; omega)]
        simp
        omega

/-- C5: with a primary URL, the assembled bundle holds at most 12 scraped
pages (primary included) no matter how many internal links exist, the
primary page stays first, failed fetches are skipped without aborting, and
when at least 11 internal links exist and every fetch succeeds the count is
exactly 12. -/
theorem scraped_pages_capped (fetch : Str → Option SPage) (first : SPage)
    (primaryUrl : Str) :
    (scraped_pages fetch first primaryUrl).length ≤ 12 ∧
    (scraped_pages fetch first primaryUrl).head? = some first ∧
    ((∀ l ∈ (classifyInternal first primaryUrl).take 12, (fetch l).isSome) →
      11 ≤ (classifyInternal first primaryUrl).length →
      (scraped_pages fetch first primaryUrl).length = 12) := by
  refine ⟨?_, ?_, ?_⟩
  · exact scrapeGo_length_le fetch _ [first] (by simp)
  · exact scrapeGo_head fetch _ first []
  · intro hok hlen
    unfold scraped_pages
    rw [scrapeGo_length_all_ok fetch _ [first] hok (by simp)]
    simp [List.length_take]
    omega

/-- A concrete run of `scraped_pages_capped`: eleven same-domain links, every
fetch succeeding, give exactly 12 pages. -/
theorem scraped_pages_capped_witness :
    (scraped_pages (fun l => some ⟨l, str "t", []⟩)
        ⟨str "https://e.com", str "home",
          (List.range 11).map (fun i => str "https://e.com/p" ++ [Char.ofNat (48 + i)])⟩
        (str "https://e.com")).length = 12 :=
  (scraped_pages_capped (fun l => some ⟨l, str "t", []⟩)
      ⟨str "https://e.com", str "home",
        (List.range 11).map (fun i => str "https://e.com/p" ++ [Char.ofNat (48 + i)])⟩
      (str "https://e.com")).2.2 (fun l _ => rfl) (by decide)

/-- The deduplicated list is a sublist of the collected one. -/
theorem dedupGo_sublist (bs : List Place) (seen : List Str) :
    (dedupGo bs seen).Sublist bs := by
  induction bs generalizing seen with
  | nil => simp [dedupGo]
  | cons b bs ih =>
    obtain ⟨po⟩ := b
    cases po with
    | none => exact (ih seen).cons ⟨none⟩
    | some pid =>
      by_cases hc : (!pid.isEmpty && !seen.contains pid) = true
      · rw [dedupGo, if_pos hc]
        exact (ih (pid :: seen)).cons₂ ⟨some pid⟩
      · rw [dedupGo, if_neg hc]
        exact (ih seen).cons ⟨some pid⟩

/-- Every entry surviving deduplication carries a non-empty place id that was
not yet seen. -/
theorem dedupGo_mem (bs : List Place) (seen : List Str) (b : Place)
    (hb : b ∈ dedupGo bs seen) :
    ∃ pid, b.place_id = some pid ∧ pid ≠ [] ∧ pid ∉ seen := by
  induction bs generalizing seen with
  | nil => simp [dedupGo] at hb
  | cons c cs ih =>
    obtain ⟨po⟩ := c
    cases po with
    | none => rw [dedupGo] at hb; exact ih seen hb
    | some pid =>
      by_cases hcond : (!pid.isEmpty && !seen.contains pid) = true
      · rw [dedupGo, if_pos hcond] at hb
        rcases List.mem_cons.mp hb with rfl | hb2
        · refine ⟨pid, rfl, ?_, ?_⟩
          · intro he
            subst he
            simp at hcond
          · intro hs
            simp at hcond
            exact absurd hs hcond.2
        · rcases ih (pid :: seen) hb2 with ⟨q, hq1, hq2, hq3⟩
          exact ⟨q, hq1, hq2, fun hs => hq3 (List.mem_cons_of_mem _ hs)⟩
      · rw [dedupGo, if_neg hcond] at hb
        exact ih seen hb

/-- Deduplication leaves each place id at most once. -/
theorem dedupGo_nodup (bs : List Place) (seen : List Str) :
    ((dedupGo bs seen).map Place.place_id).Nodup := by
  induction bs generalizing seen with
  | nil => simp [dedupGo]
  | cons b bs ih =>
    obtain ⟨po⟩ := b
    cases po with
    | none => rw [dedupGo]; exact ih seen
    | some pid =>
      by_cases hcond : (!pid.isEmpty && !seen.contains pid) = true
      · rw [dedupGo, if_pos hcond]
        simp only [List.map_cons, List.nodup_cons]
        refine ⟨?_, ih (pid :: seen)⟩
        intro hmem
        rcases List.mem_map.mp hmem with ⟨c, hc, hcid⟩
        rcases dedupGo_mem bs (pid :: seen) c hc with ⟨q, hq1, _, hq3⟩
        rw [hq1] at hcid
        have : q = pid := by injection hcid
        exact hq3 (this ▸ List.mem_cons_self q seen)
      · rw [dedupGo, if_neg hcond]
        exact ih seen

/-- C6: for every sequence of nearby-places result pages, `find_businesses`
returns only entries with a (non-empty) place id, each id at most once with
first-seen order preserved (the result is a sublist of the collected
entries), and at most `target_count` entries. -/
theorem find_businesses_dedup (pages : List (List Place)) (target : Nat) :
    (∀ b ∈ find_businesses pages target,
        ∃ pid, b.place_id = some pid ∧ pid ≠ []) ∧
    ((find_businesses pages target).map Place.place_id).Nodup ∧
    (find_businesses pages target).Sublist (collectPages target pages []) ∧
    (find_businesses pages target).length ≤ target := by
  refine ⟨?_, ?_, ?_, ?_⟩
  · intro b hb
    have hb2 : b ∈ dedupGo (collectPages target pages []) [] :=
      (List.take_sublist _ _).mem hb
    rcases dedupGo_mem _ [] b hb2 with ⟨pid, h1, h2, _⟩
    exact ⟨pid, h1, h2⟩
  · have : ((dedupGo (collectPages target pages []) []).map Place.place_id).Nodup :=
      dedupGo_nodup _ []
    unfold find_businesses
    rw [List.map_take]
    exact this.sublist (List.take_sublist _ _)
  · exact (List.take_sublist _ _).trans (dedupGo_sublist _ [])
  · unfold find_businesses
    rw [List.length_take]
    exact min_le_left _ _

/-- A concrete run of `find_businesses_dedup`: pages with a duplicated id
`"a"` across pagination give each id once, within the target count. -/
theorem find_businesses_dedup_witness :
    (∃ pid, (⟨some (str "a")⟩ : Place).place_id = some pid ∧ pid ≠ []) ∧
    ((find_businesses
        [[⟨some (str "a")⟩, ⟨none⟩], [⟨some (str "a")⟩, ⟨some (str "b")⟩]]
        20).map Place.place_id).Nodup ∧
    (find_businesses
        [[⟨some (str "a")⟩, ⟨none⟩], [⟨some (str "a")⟩, ⟨some (str "b")⟩]]
        20).length ≤ 20 :=
  ⟨(find_businesses_dedup
        [[⟨some (str "a")⟩, ⟨none⟩], [⟨some (str "a")⟩, ⟨some (str "b")⟩]]
        20).1 ⟨some (str "a")⟩ (by decide),
    (find_businesses_dedup _ _).2.1, (find_businesses_dedup _ _).2.2.2⟩

/-- A status of 500 or more raises `HttpError` with the first 200 body
characters. -/
theorem attemptGet_5xx {s : Nat} (b : Str) (h : 500 ≤ s) :
    attemptGet (.resp s b) = .error (.httpError s (b.take 200)) := by
  simp [attemptGet, h]

/-- A status in 400–499 raises through `raise_for_status`, not `HttpError`. -/
theorem attemptGet_4xx {s : Nat} (b : Str) (h4 : 400 ≤ s) (h5 : s < 500) :
    attemptGet (.resp s b) = .error (.statusError s) := by
  have : ¬ 500 ≤ s := by omega
  simp [attemptGet, this, h4]

/-- A status below 400 returns the payload. -/
theorem attemptGet_ok {s : Nat} (b : Str) (h : s < 400) :
    attemptGet (.resp s b) = .ok b := by
  have h5 : ¬ 500 ≤ s := by omega
  have h4 : ¬ 400 ≤ s := by omega
  simp [attemptGet, h5, h4]

/-- After `k` server-error attempts (all raising `HttpError`) a successful
attempt within the budget returns its payload, with `k + 1` attempts made. -/
theorem tenacityRun_ok_after_5xx (trace : Nat → HttpOutcome) (k : Nat) (b : Str) :
    ∀ i rem, k ≤ rem →
    (∀ j, j < k → ∃ st bd, trace (i + j) = .resp st bd ∧ 500 ≤ st) →
    (∃ s, trace (i + k) = .resp s b ∧ s < 400) →
    tenacityRun (fun n => attemptGet (trace n)) i rem = (.ok b, i + k + 1) := by
  induction k with
  | zero =>
    intro i rem _ _ hok
    rcases hok with ⟨s, hts, hs⟩
    rw [Nat.add_zero] at hts
    cases rem with
    | zero => simp [tenacityRun, hts, attemptGet_ok b hs]
    | succ r => simp [tenacityRun, hts, attemptGet_ok b hs]
  | succ k ih =>
    intro i rem hrem h5 hok
    rcases h5 0 (Nat.succ_pos k) with ⟨st, bd, ht0, hst⟩
    rw [Nat.add_zero] at ht0
    cases rem with
    | zero => omega
    | succ r =>
      have hrec : tenacityRun (fun n => attemptGet (trace n)) (i + 1) r =
          (.ok b, (i + 1) + k + 1) := by
        refine ih (i + 1) r (by omega) ?_ ?_
        · intro j hj
          have h := h5 (j + 1) (by omega)
          rwa [show i + (j + 1) = (i + 1) + j by omega] at h
        · rwa [show i + (k + 1) = (i + 1) + k by omega] at hok
      rw [show i + (k + 1) + 1 = (i + 1) + k + 1 by omega]
      simp [tenacityRun, ht0, attemptGet_5xx bd hst, isHttpError, hrec]

/-- C3 counterexample: a transport-level failure on the first attempt is not
retried — `requests` exceptions are not `HttpError`, so
`retry_if_exception_type(HttpError)` surfaces them at once, even though a
200 would follow; and the first backoff is 1s (the `min=1` clamp), never
the claimed 0.5s. -/
theorem get_json_transport_not_retried :
    get_json (fun i =>
        if i = 0 then HttpOutcome.transport (str "conn reset")
        else HttpOutcome.resp 200 (str "ok")) =
      (Except.error (ReqError.transportFail (str "conn reset")), 1) ∧
    (Except.error (ReqError.transportFail (str "conn reset")) : Except ReqError Str) ≠
      Except.ok (str "ok") ∧
    waitExponential 1 = 1 ∧ (1 : ℚ) ≠ 1 / 2 := by
  refine ⟨rfl, fun h => Except.noConfusion h, ?_, by norm_num⟩
  unfold waitExponential
  norm_num

/-- C3 amended: a response with status ≥ 500 raises `HttpError` and is
retried up to 4 total attempts; a 400–499 response and a transport-level
failure both fail immediately with no retry; after the 4 attempts exhaust,
the last error is surfaced; three 503s followed by a 200 succeed with the
200 payload (4 attempts); the backoff between attempts is exponential with
multiplier 0.5 but clamped to the interval [1s, 8s]. -/
theorem get_json_retry_policy (trace : Nat → HttpOutcome) :
    (∀ k b, k ≤ 3 →
      (∀ i, i < k → ∃ st bd, trace i = HttpOutcome.resp st bd ∧ 500 ≤ st) →
      (∃ s, trace k = HttpOutcome.resp s b ∧ s < 400) →
      get_json trace = (Except.ok b, k + 1)) ∧
    (∀ s b, trace 0 = HttpOutcome.resp s b → 400 ≤ s → s < 500 →
      get_json trace = (Except.error (ReqError.statusError s), 1)) ∧
    ((∀ i, i ≤ 3 → ∃ st bd, trace i = HttpOutcome.resp st bd ∧ 500 ≤ st) →
      ∃ st bd, trace 3 = HttpOutcome.resp st bd ∧
        get_json trace = (Except.error (ReqError.httpError st (bd.take 200)), 4)) ∧
    (∀ m, trace 0 = HttpOutcome.transport m →
      get_json trace = (Except.error (ReqError.transportFail m), 1)) ∧
    (∀ n, 1 ≤ waitExponential n ∧ waitExponential n ≤ 8) := by
  refine ⟨?_, ?_, ?_, ?_, ?_⟩
  · intro k b hk h5 hok
    have := tenacityRun_ok_after_5xx trace k b 0 3 hk
      (by intro j hj; simpa using h5 j hj) (by simpa using hok)
    simpa [get_json] using this
  · intro s b ht h4 h5
    simp [get_json, tenacityRun, ht, attemptGet_4xx b h4 h5, isHttpError]
  · intro h5
    rcases h5 0 (by omega) with ⟨s0, b0, h0, hs0⟩
    rcases h5 1 (by omega) with ⟨s1, b1, h1, hs1⟩
    rcases h5 2 (by omega) with ⟨s2, b2, h2, hs2⟩
    rcases h5 3 (by omega) with ⟨s3, b3, h3, hs3⟩
    refine ⟨s3, b3, h3, ?_⟩
    simp [get_json, tenacityRun, h0, h1, h2, h3, attemptGet_5xx b0 hs0,
      attemptGet_5xx b1 hs1, attemptGet_5xx b2 hs2, attemptGet_5xx b3 hs3,
      isHttpError]
  · intro m ht
    simp [get_json, tenacityRun, ht, attemptGet, isHttpError]
  · intro n
    constructor
    · exact le_max_left _ _
    · exact max_le (by norm_num) (min_le_right _ _)

/-- A concrete run of `get_json_retry_policy`: three 503s then a 200 return
the 200 payload on the fourth attempt, and a single 404 surfaces
immediately after one attempt. -/
theorem get_json_retry_policy_witness :
    get_json (fun i =>
        if i < 3 then HttpOutcome.resp 503 (str "unavailable")
        else HttpOutcome.resp 200 (str "payload")) =
      (Except.ok (str "payload"), 4) ∧
    get_json (fun _ => HttpOutcome.resp 404 (str "not found")) =
      (Except.error (ReqError.statusError 404), 1) :=
  ⟨(get_json_retry_policy (fun i =>
        if i < 3 then HttpOutcome.resp 503 (str "unavailable")
        else HttpOutcome.resp 200 (str "payload"))).1 3 (str "payload")
      (by omega)
      (fun i hi => ⟨503, str "unavailable", by simp [hi], by omega⟩)
      ⟨200, by norm_num, by omega⟩,
    (get_json_retry_policy (fun _ => HttpOutcome.resp 404 (str "not found"))).2.1
      404 (str "not found") rfl (by omega) (by omega)⟩

/-- C2 counterexample: on the non-empty, unparsable content `"not json"`,
`synthesize_profile` propagates the `orjson.loads` error instead of
returning the empty object the claim promises. -/
theorem synthesize_profile_raises_on_bad_json :
    synthesize_profile (some (str "not json")) =
      Except.error (str "invalid json") ∧
    synthesize_profile (some (str "not json")) ≠
      Except.ok (JValue.jobj []) := by
  constructor
  · rfl
  · intro h
    rw [show synthesize_profile (some (str "not json")) =
        Except.error (str "invalid json") from rfl] at h
    exact Except.noConfusion h

/-- C2 amended: `synthesize_profile` returns the empty object when the
response content is absent or empty; when non-empty content fails to
parse as JSON the parse exception propagates to the caller (the result is
exactly that of `orjson.loads`). -/
theorem synthesize_profile_empty_content (c : Str) :
    synthesize_profile none = Except.ok (JValue.jobj []) ∧
    synthesize_profile (some []) = Except.ok (JValue.jobj []) ∧
    (c ≠ [] → synthesize_profile (some c) = orjson_loads c) := by
  refine ⟨rfl, rfl, ?_⟩
  intro hc
  have : c.isEmpty = false := by
    cases c with
    | nil => exact absurd rfl hc
    | cons a as => rfl
  simp [synthesize_profile, this]

/-- A concrete run of `synthesize_profile_empty_content` at the non-empty
content `"7"`: the result is whatever `orjson.loads` returns. -/
theorem synthesize_profile_empty_content_witness :
    synthesize_profile (some (str "7")) = orjson_loads (str "7") :=
  (synthesize_profile_empty_content (str "7")).2.2 (by decide)

/-- A list with a non-empty front stays non-empty after appending. -/
theorem append_isEmpty_false (s t : Str) (h : s.isEmpty = false) :
    (s ++ t).isEmpty = false := by
  cases s with
  | nil => simp at h
  | cons c cs => simp

/-- The `team.md` body is empty exactly when the team list is. -/
theorem teamMd_isEmpty (p : Profile) : (teamMd p).isEmpty = p.team.isEmpty := by
  unfold teamMd
  cases ht : p.team with
  | nil => simp
  | cons a as =>
    simp only [List.isEmpty_cons, if_false, Bool.false_eq_true]
    exact append_isEmpty_false _ _ (by decide)

/-- The `products.md` body is empty exactly when the products list is. -/
theorem productsMd_isEmpty (p : Profile) :
    (productsMd p).isEmpty = p.products.isEmpty := by
  unfold productsMd
  cases ht : p.products with
  | nil => simp
  | cons a as =>
    simp only [List.isEmpty_cons, if_false, Bool.false_eq_true]
    exact append_isEmpty_false _ _ (by decide)

/-- C9: the rendered mapping always holds exactly `about.md`, `services.md`,
`faqs.md` and `homepage-hero.md`, plus `team.md` iff the team list is
non-empty and `products.md` iff the products list is non-empty; rendering
is total, so an absent optional field is never an error. -/
theorem render_markdown_outputs_keys (p : Profile) :
    (render_markdown_outputs p).map Prod.fst =
      [str "about.md", str "services.md", str "faqs.md",
        str "homepage-hero.md"] ++
      (if p.team.isEmpty then [] else [str "team.md"]) ++
      (if p.products.isEmpty then [] else [str "products.md"]) := by
  unfold render_markdown_outputs
  rw [teamMd_isEmpty, productsMd_isEmpty]
  cases p.team.isEmpty <;> cases p.products.isEmpty <;> simp

/-- C8 counterexample: with no primary URL but an organization URL
`https://example.com`, the code writes `@id = "#organization"` (the
conditional expression's `else ''` branch wins), not the claim's
`https://example.com#organization`. -/
theorem org_graph_id_counterexample :
    (build_org_node
        ⟨none, none, some (str "https://example.com"), none, none, none,
          none, none⟩ none).atId = str "#organization" ∧
    orgIdClaim
        ⟨none, none, some (str "https://example.com"), none, none, none,
          none, none⟩ none = str "https://example.com#organization" ∧
    str "#organization" ≠ str "https://example.com#organization" :=
  ⟨rfl, by decide, by decide⟩

/-- C8 amended: the document is a single-node graph of `@type Organization`;
the `@id` always ends in `#organization`; when a primary URL is present
(and non-empty) the `@id` prefix is the organization URL with trailing
slashes stripped, or the primary URL so stripped when that is empty, while
with no primary URL the `@id` is exactly `#organization` whatever the
organization URL; `name`, `telephone`, `description` come from the profile
(absent → null), `url` falls back to the primary URL, `sameAs` defaults to
the empty list (never null), and `address`/`openingHoursSpecification`
serialize falsy values as null. -/
theorem build_org_graph_correct (org : Org) (primary : Option Str) :
    (build_org_graph org primary).graph = [build_org_node org primary] ∧
    (build_org_node org primary).atType = str "Organization" ∧
    (∃ t, (build_org_node org primary).atId = t ++ str "#organization") ∧
    (primary = none → (build_org_node org primary).atId = str "#organization") ∧
    (∀ p, primary = some p → p.isEmpty = false →
      (build_org_node org primary).atId =
        (if (rstripSlash (getS org.url)).isEmpty then rstripSlash p
          else rstripSlash (getS org.url)) ++ str "#organization") ∧
    (build_org_node org primary).url = pyOr org.url primary ∧
    (build_org_node org primary).sameAs = socialOrEmpty org.social := by
  refine ⟨rfl, rfl, ?_, ?_, ?_, rfl, rfl⟩
  · exact ⟨_, rfl⟩
  · intro h
    subst h
    rfl
  · intro p hp hpe
    subst hp
    show orgId org (some p) = _
    unfold orgId
    simp [hpe]

/-- A concrete run of `build_org_graph_correct`: with a primary URL ending
in a slash and no organization URL, the `@id` strips the slash and appends
`#organization`. -/
theorem build_org_graph_correct_witness :
    (build_org_node ⟨none, none, none, none, none, none, none, none⟩
        (some (str "https://example.com/"))).atId =
      str "https://example.com#organization" := by
  have h := (build_org_graph_correct
      ⟨none, none, none, none, none, none, none, none⟩
      (some (str "https://example.com/"))).2.2.2.2.1
      (str "https://example.com/") rfl (by decide)
  rw [h]
  decide

/-- The page loop leaves the item heap alone. -/
theorem truncPagesAt_items (addrs : List Nat) (st : Store) :
    (truncPagesAt addrs st).items = st.items := by
  induction addrs generalizing st with
  | nil => rfl
  | cons a as ih => rw [truncPagesAt, ih]

/-- The item loop leaves the page heap alone. -/
theorem truncItemsAt_pages (addrs : List Nat) (st : Store) :
    (truncItemsAt addrs st).pages = st.pages := by
  induction addrs generalizing st with
  | nil => rfl
  | cons a as ih => rw [truncItemsAt, ih]

/-- Pages at addresses outside the loop's list are untouched. -/
theorem truncPagesAt_not_mem (addrs : List Nat) (st : Store) (a : Nat)
    (h : a ∉ addrs) : (truncPagesAt addrs st).pages a = st.pages a := by
  induction addrs generalizing st with
  | nil => rfl
  | cons x xs ih =>
    rw [truncPagesAt, ih _ (fun hm => h (List.mem_cons_of_mem x hm))]
    have hne : a ≠ x := fun he => h (he ▸ List.mem_cons_self x xs)
    simp [updFn, hne]

/-- Items at addresses outside the loop's list are untouched. -/
theorem truncItemsAt_not_mem (addrs : List Nat) (st : Store) (a : Nat)
    (h : a ∉ addrs) : (truncItemsAt addrs st).items a = st.items a := by
  induction addrs generalizing st with
  | nil => rfl
  | cons x xs ih =>
    rw [truncItemsAt, ih _ (fun hm => h (List.mem_cons_of_mem x hm))]
    have hne : a ≠ x := fun he => h (he ▸ List.mem_cons_self x xs)
    simp [updFn, hne]

/-- A page referenced once by the loop's list ends up truncated in place. -/
theorem truncPagesAt_mem (addrs : List Nat) (st : Store) (a : Nat)
    (hnd : addrs.Nodup) (h : a ∈ addrs) :
    (truncPagesAt addrs st).pages a = truncPageObj (st.pages a) := by
  induction addrs generalizing st with
  | nil => simp at h
  | cons x xs ih =>
    rw [List.nodup_cons] at hnd
    rcases List.mem_cons.mp h with rfl | hmem
    · rw [truncPagesAt, truncPagesAt_not_mem _ _ _ hnd.1]
      simp [updFn]
    · have hne : a ≠ x := fun he => hnd.1 (he ▸ hmem)
      rw [truncPagesAt, ih _ hnd.2 hmem]
      simp [updFn, hne]

/-- An item referenced once by the loop's list ends up truncated in place. -/
theorem truncItemsAt_mem (addrs : List Nat) (st : Store) (a : Nat)
    (hnd : addrs.Nodup) (h : a ∈ addrs) :
    (truncItemsAt addrs st).items a = truncItemObj (st.items a) := by
  induction addrs generalizing st with
  | nil => simp at h
  | cons x xs ih =>
    rw [List.nodup_cons] at hnd
    rcases List.mem_cons.mp h with rfl | hmem
    · rw [truncItemsAt, truncItemsAt_not_mem _ _ _ hnd.1]
      simp [updFn]
    · have hne : a ≠ x := fun he => hnd.1 (he ▸ hmem)
      rw [truncItemsAt, ih _ hnd.2 hmem]
      simp [updFn, hne]

/-- A page dict whose text is over the cap gets its text truncated in
place to 8000 characters plus the marker. -/
theorem truncPageObj_long (u t : Str) (h : 8000 < t.length) :
    truncPageObj ⟨u, some t⟩ = ⟨u, some (t.take 8000 ++ truncMarker)⟩ := by
  simp [truncPageObj, h]

/-- C1 counterexample: `truncate_sources` mutates the source bundle's nested
page dicts — after the call, the original bundle's page 0 (the same heap
object the shallow copy references) no longer holds its original `text`. -/
theorem truncate_sources_mutates_original :
    ((truncate_sources ⟨some [0], none, none⟩
        ⟨fun _ => bigPage, fun _ => ⟨none⟩⟩).2.pages 0).text ≠ bigPage.text := by
  have e : (truncate_sources ⟨some [0], none, none⟩
      ⟨fun _ => bigPage, fun _ => ⟨none⟩⟩).2 =
      truncPagesAt [0] ⟨fun _ => bigPage, fun _ => ⟨none⟩⟩ := rfl
  have h1 : (truncate_sources ⟨some [0], none, none⟩
      ⟨fun _ => bigPage, fun _ => ⟨none⟩⟩).2.pages 0 = truncPageObj bigPage := by
    rw [e, truncPagesAt_mem [0] _ 0 (by simp) (by simp)]
  rw [h1]
  have hlen : 8000 < (List.replicate 8001 'a').length := by
    rw [List.length_replicate]
    omega
  have h2 : truncPageObj bigPage =
      ⟨str "https://example.com",
        some ((List.replicate 8001 'a').take 8000 ++ truncMarker)⟩ := by
    rw [show bigPage = ⟨str "https://example.com", some (List.replicate 8001 'a')⟩
      from rfl]
    exact truncPageObj_long _ _ hlen
  rw [h2, show bigPage.text = some (List.replicate 8001 'a') from rfl]
  intro h
  have h3 := congrArg List.length (Option.some.inj h)
  rw [List.length_append, List.length_take, List.length_replicate] at h3
  have hm : truncMarker.length = 15 := rfl
  rw [hm] at h3
  omega

/-- C1 amended: `truncate_sources` does not rebind the original bundle's
top-level entries (the returned copy shares the `scraped`/`cse` references,
and only the copy's `pagespeed` is replaced — exactly when it is a dict
holding `lighthouseResult`), but the nested page and item dicts referenced
by the bundle are truncated in place on the shared heap, so the original
bundle sees the capped `text` (8000 chars plus marker) and `snippet`
(500 chars plus `...`); pages not referenced stay untouched. -/
theorem truncate_sources_effects (b : Bundle) (st : Store) :
    (truncate_sources b st).1.scraped = b.scraped ∧
    (truncate_sources b st).1.cse = b.cse ∧
    (truncate_sources b st).1.pagespeed =
      (match b.pagespeed with
       | some (PSVal.pdict true _) => some psSummary
       | x => x) ∧
    (∀ addrs, b.scraped = some addrs → addrs.Nodup → ∀ a ∈ addrs,
      (truncate_sources b st).2.pages a = truncPageObj (st.pages a)) ∧
    (∀ addrs, b.cse = some addrs → addrs.Nodup → ∀ a ∈ addrs,
      (truncate_sources b st).2.items a = truncItemObj (st.items a)) ∧
    (b.scraped = none → (truncate_sources b st).2.pages = st.pages) := by
  obtain ⟨sc, cs, ps⟩ := b
  refine ⟨?_, ?_, ?_, ?_, ?_, ?_⟩
  · cases ps with
    | none => rfl
    | some v =>
      cases v with
      | pdict hl c => cases hl <;> rfl
      | nondict c => rfl
  · cases ps with
    | none => rfl
    | some v =>
      cases v with
      | pdict hl c => cases hl <;> rfl
      | nondict c => rfl
  · cases ps with
    | none => rfl
    | some v =>
      cases v with
      | pdict hl c => cases hl <;> rfl
      | nondict c => rfl
  · intro addrs hsc hnd a ha
    subst hsc
    cases cs with
    | none => exact truncPagesAt_mem addrs st a hnd ha
    | some a2 =>
      show (truncItemsAt a2 (truncPagesAt addrs st)).pages a = _
      rw [truncItemsAt_pages]
      exact truncPagesAt_mem addrs st a hnd ha
  · intro addrs hcse hnd a ha
    subst hcse
    cases sc with
    | none => exact truncItemsAt_mem addrs st a hnd ha
    | some sa =>
      show (truncItemsAt addrs (truncPagesAt sa st)).items a = _
      rw [truncItemsAt_mem addrs _ a hnd ha, truncPagesAt_items]
  · intro hsc
    subst hsc
    cases cs with
    | none => rfl
    | some a2 =>
      show (truncItemsAt a2 st).pages = st.pages
      exact truncItemsAt_pages a2 st

/-- A concrete run of `truncate_sources_effects`: an oversized page and
snippet are truncated on the shared heap and the copy's `pagespeed` is
replaced by the summary dict. -/
theorem truncate_sources_effects_witness :
    (truncate_sources ⟨some [0, 1], some [0], some (PSVal.pdict true (str "raw"))⟩
        ⟨fun _ => bigPage, fun _ => bigItem⟩).1.pagespeed = some psSummary ∧
    (truncate_sources ⟨some [0, 1], some [0], some (PSVal.pdict true (str "raw"))⟩
        ⟨fun _ => bigPage, fun _ => bigItem⟩).2.pages 0 = truncPageObj bigPage ∧
    (truncate_sources ⟨some [0, 1], some [0], some (PSVal.pdict true (str "raw"))⟩
        ⟨fun _ => bigPage, fun _ => bigItem⟩).2.items 0 = truncItemObj bigItem := by
  refine ⟨?_, ?_, ?_⟩
  · have h := (truncate_sources_effects
        ⟨some [0, 1], some [0], some (PSVal.pdict true (str "raw"))⟩
        ⟨fun _ => bigPage, fun _ => bigItem⟩).2.2.1
    simpa using h
  · exact (truncate_sources_effects
        ⟨some [0, 1], some [0], some (PSVal.pdict true (str "raw"))⟩
        ⟨fun _ => bigPage, fun _ => bigItem⟩).2.2.2.1 [0, 1] rfl (by decide) 0 (by decide)
  · exact (truncate_sources_effects
        ⟨some [0, 1], some [0], some (PSVal.pdict true (str "raw"))⟩
        ⟨fun _ => bigPage, fun _ => bigItem⟩).2.2.2.2.1 [0] rfl (by decide) 0 (by decide)

end ContentProfiler












